import Mathlib

/-!
Shallow embedding of the `rskey` crate (src/lib.rs): a persistent key-value
store of strings.  The Rust `HashMap<String, String>` is modelled as an
association list with unique keys (first match wins on lookup, in-place
replacement on insert, exactly the observable behaviour of `HashMap`).
The filesystem is modelled explicitly as a finite map from paths to
directory entries, together with a trace of write behaviours describing
how successive file writes fare.  `serde_json` is modelled abstractly: a
valid JSON text is represented by the mapping it decodes to, and any
undecodable byte sequence by a distinguished `garbage` constructor.

The write model follows the source's `save` faithfully rather than as an
atomic whole-file write: `File::create` truncates the file as soon as it
succeeds, `serde_json::to_writer` then writes through a `BufWriter` that
`save` never flushes — the final flush happens in the `BufWriter`'s
`Drop`, which discards any flush error — so a save can return `Ok` while
the file holds only a prefix of the encoding, and a failed save can
leave the file truncated.  Any proper prefix of the JSON encoding of a
mapping (including the empty file) is not valid JSON, so partial writes
are represented by `garbage`.
-/

namespace Rskey

/-- Model of `std::io::ErrorKind`: the kinds distinguished by the code
(`NotFound` is the one `open_or_create` branches on; `invalidData` is the
kind produced when `serde_json::from_reader`'s error is converted to
`std::io::Error`; the rest model other I/O failures such as
permission-denied or a non-directory path component). -/
inductive ErrKind where
  | notFound
  | permissionDenied
  | notADirectory
  | invalidData
  | otherKind
deriving DecidableEq, Repr

/-- Contents of a file on disk. `encoded m` models a JSON text that
`serde_json` decodes to the mapping `m`; `garbage` models bytes that fail
to decode. -/
inductive FileContents where
  | encoded (m : List (String × String))
  | garbage
deriving DecidableEq, Repr

/-- Model of `serde_json::from_reader` on a file's contents. -/
def decodeContents : FileContents → Option (List (String × String))
  | .encoded m => some m
  | .garbage => none

/-- Model of `serde_json::to_writer`: serializing a mapping yields a JSON
text that decodes back to it. -/
def encodeContents (m : List (String × String)) : FileContents :=
  .encoded m

/-- A directory entry: a readable file with some contents, or an existing
path that cannot be opened (permission denied, dangling component, ...),
carrying the error kind `File::open` reports for it. -/
inductive DirEntry where
  | file (c : FileContents)
  | unreadable (k : ErrKind)
deriving DecidableEq, Repr

/-- Lookup in an association list: the value at the first matching key. -/
def assocGet {α : Type} (p : String) : List (String × α) → Option α
  | [] => none
  | (q, a) :: rest => if q = p then some a else assocGet p rest

/-- Insert into an association list, replacing the first occurrence of the
key in place, appending at the end if the key is absent — exactly the
observable behaviour of `HashMap::insert` on a unique-key list. -/
def assocSet {α : Type} (p : String) (c : α) : List (String × α) → List (String × α)
  | [] => [(p, c)]
  | (q, d) :: rest => if q = p then (p, c) :: rest else (q, d) :: assocSet p c rest

/-- How one execution of `save`'s file I/O behaves, decomposing
`File::create` followed by `serde_json::to_writer` over an unflushed
`BufWriter`:
* `fullWrite` — create succeeds and every byte reaches the file;
* `failedFlush` — create succeeds (truncating the file), `to_writer`
  returns `Ok` with bytes still buffered, and the final flush in the
  `BufWriter`'s `Drop` fails; the error is discarded, so the caller sees
  `Ok` while the file holds an undecodable prefix;
* `failedWrite` — create succeeds (truncating the file) and a write
  error surfaces out of `to_writer` (possible once the encoding exceeds
  the buffer), so the caller sees `Err` and the file holds an
  undecodable prefix;
* `failedCreate` — `File::create` itself fails; the caller sees `Err`
  and the file is untouched. -/
inductive WriteBehavior where
  | fullWrite
  | failedFlush
  | failedWrite
  | failedCreate
deriving DecidableEq, Repr

/-- The filesystem: the existing directory entries, plus the trace of
behaviours of successive file writes (the environment's choice of which
I/O operations succeed); an exhausted trace means writes succeed
fully. -/
structure FS where
  files : List (String × DirEntry)
  ioTrace : List WriteBehavior
deriving DecidableEq, Repr

/-- Result of `File::open`. -/
inductive OpenResult where
  | ok (c : FileContents)
  | ioError (k : ErrKind)
deriving DecidableEq, Repr

/-- Model of `File::open`: an absent path reports `NotFound`; an
unreadable entry reports its error kind; a readable file opens. -/
def FS.openFile (fs : FS) (p : String) : OpenResult :=
  match assocGet p fs.files with
  | some (.file c) => .ok c
  | some (.unreadable k) => .ioError k
  | none => .ioError .notFound

/-- Model of `File::create` followed by the buffered, never-explicitly-
flushed write of `c`, consuming one step of the behaviour trace.  The
result is the `Result` the caller of `save` observes paired with the
filesystem afterwards: note that `Ok` with only garbage on disk
(`failedFlush`) and `Err` with the file truncated to garbage
(`failedWrite`) are both possible, exactly as in the source. -/
def FS.createFile (fs : FS) (p : String) (c : FileContents) :
    Except ErrKind Unit × FS :=
  match fs.ioTrace with
  | [] => (.ok (), { files := assocSet p (.file c) fs.files, ioTrace := [] })
  | .fullWrite :: rest =>
    (.ok (), { files := assocSet p (.file c) fs.files, ioTrace := rest })
  | .failedFlush :: rest =>
    (.ok (), { files := assocSet p (.file .garbage) fs.files, ioTrace := rest })
  | .failedWrite :: rest =>
    (.error .otherKind,
      { files := assocSet p (.file .garbage) fs.files, ioTrace := rest })
  | .failedCreate :: rest =>
    (.error .permissionDenied, { files := fs.files, ioTrace := rest })

/-- The `Store` struct of src/lib.rs: a path and an in-memory mapping. -/
structure Store where
  path : String
  data : List (String × String)
deriving DecidableEq, Repr

/-- `Store::open_or_create` (src/lib.rs lines 113-125): opens the file at
`path`; on success decodes it into `data` (propagating a decode failure as
an error); on a `NotFound` error starts with an empty mapping; any other
open error is returned as-is.  The function only reads, so the returned
filesystem is always the input one (the second component makes this
explicit). -/
def Store.open_or_create (fs : FS) (path : String) : Except ErrKind Store × FS :=
  match fs.openFile path with
  | .ok c =>
    match decodeContents c with
    | some data => (.ok { path := path, data := data }, fs)
    | none => (.error .invalidData, fs)
  | .ioError k =>
    if k = .notFound then (.ok { path := path, data := [] }, fs)
    else (.error k, fs)

/-- `Store::save` (src/lib.rs lines 137-142): creates/truncates the file
at the store's path and writes the serialized mapping to it through a
`BufWriter` it never flushes, so the returned `Ok`/`Err` and the
resulting file contents are as `FS.createFile` describes. -/
def Store.save (s : Store) (fs : FS) : Except ErrKind Unit × FS :=
  fs.createFile s.path (encodeContents s.data)

/-- `Store::get` (src/lib.rs lines 183-185): lookup in the in-memory
mapping; pure, takes no filesystem and returns no error. -/
def Store.get (s : Store) (key : String) : Option String :=
  assocGet key s.data

/-- `IntoIterator for Store` (src/lib.rs lines 188-194): iteration yields
the entries of the in-memory mapping. -/
def Store.into_iter (s : Store) : List (String × String) :=
  s.data

/-- `Store::set` (src/lib.rs lines 164-167): inserts into the in-memory
mapping (this always succeeds), then calls `save`; the save's result is
returned to the caller with the mapping already mutated, and the
filesystem is whatever the save left behind (possibly a truncated
file, on a failed or partially flushed write). -/
def Store.set (s : Store) (fs : FS) (key value : String) :
    Except ErrKind Unit × Store × FS :=
  let s2 : Store := { s with data := assocSet key value s.data }
  let r := s2.save fs
  (r.1, s2, r.2)

/-- The operations the `Store` API exposes after construction (there is
no delete operation in src/lib.rs). -/
inductive ApiOp where
  | doSet (key value : String)
  | doSave
  | doGet (key : String)
deriving DecidableEq, Repr

/-- One API operation applied to a store and a filesystem, keeping only
the resulting state (`get` and a failed `save` leave both unchanged). -/
def runOp (s : Store) (fs : FS) : ApiOp → Store × FS
  | .doSet k v => ((s.set fs k v).2.1, (s.set fs k v).2.2)
  | .doSave => (s, (s.save fs).2)
  | .doGet _ => (s, fs)

/-- A sequence of API operations, applied left to right. -/
def runOps (s : Store) (fs : FS) : List ApiOp → Store × FS
  | [] => (s, fs)
  | op :: rest => runOps (runOp s fs op).1 (runOp s fs op).2 rest

/-- Keys of the in-memory mapping are unique: the representation
invariant of `HashMap` that every `Store` built through the API enjoys. -/
def Store.WF (s : Store) : Prop :=
  (s.data.map Prod.fst).Nodup

theorem assocGet_assocSet_self {α : Type} (p : String) (c : α)
    (l : List (String × α)) : assocGet p (assocSet p c l) = some c := by
  induction l with
  | nil => simp [assocGet, assocSet]
  | cons hd tl ih =>
    obtain ⟨q, d⟩ := hd
    by_cases hq : q = p
    · simp [assocGet, assocSet, hq]
    · simp [assocGet, assocSet, hq, ih]

theorem assocGet_assocSet_ne {α : Type} (p p' : String) (c : α)
    (l : List (String × α)) (h : p' ≠ p) :
    assocGet p' (assocSet p c l) = assocGet p' l := by
  have hps : ¬ p = p' := fun hc => h hc.symm
  induction l with
  | nil => simp [assocGet, assocSet, hps]
  | cons hd tl ih =>
    obtain ⟨q, d⟩ := hd
    by_cases hq : q = p
    · subst hq
      simp [assocGet, assocSet, hps]
    · simp only [assocSet, if_neg hq]
      by_cases hq' : q = p'
      · simp [assocGet, hq']
      · simp [assocGet, hq', ih]

theorem assocGet_eq_none_of_not_mem {α : Type} (k : String)
    (l : List (String × α)) (h : k ∉ l.map Prod.fst) :
    assocGet k l = none := by
  induction l with
  | nil => rfl
  | cons hd tl ih =>
    obtain ⟨q, d⟩ := hd
    simp only [List.map_cons, List.mem_cons] at h
    push_neg at h
    have hqk : ¬ q = k := fun hc => h.1 hc.symm
    simp [assocGet, hqk, ih h.2]

theorem mem_of_assocGet_eq_some {α : Type} (k : String) (v : α)
    (l : List (String × α)) (h : assocGet k l = some v) : (k, v) ∈ l := by
  induction l with
  | nil => simp [assocGet] at h
  | cons hd tl ih =>
    obtain ⟨q, d⟩ := hd
    by_cases hq : q = k
    · subst hq
      simp [assocGet] at h
      simp [h]
    · simp only [assocGet, if_neg hq] at h
      simp [ih h]

theorem assocGet_eq_some_of_mem {α : Type} (k : String) (v : α)
    (l : List (String × α)) (hnd : (l.map Prod.fst).Nodup)
    (h : (k, v) ∈ l) : assocGet k l = some v := by
  induction l with
  | nil => simp at h
  | cons hd tl ih =>
    obtain ⟨q, d⟩ := hd
    simp only [List.map_cons, List.nodup_cons] at hnd
    rcases List.mem_cons.mp h with heq | hmem
    · obtain ⟨hk, hv⟩ := Prod.mk.injEq .. ▸ heq.symm
      simp [assocGet, hk, hv]
    · have hqk : q ≠ k := by
        intro hc
        subst hc
        exact hnd.1 (List.mem_map.mpr ⟨(q, v), hmem, rfl⟩)
      simp [assocGet, hqk, ih hnd.2 hmem]

theorem save_eq_of_trace_nil (s : Store) (fs : FS)
    (h : fs.ioTrace = []) :
    s.save fs = (.ok (),
      ⟨assocSet s.path (.file (encodeContents s.data)) fs.files, []⟩) := by
  simp [Store.save, FS.createFile, h]

theorem save_eq_of_trace_full (s : Store) (fs : FS)
    (rest : List WriteBehavior) (h : fs.ioTrace = .fullWrite :: rest) :
    s.save fs = (.ok (),
      ⟨assocSet s.path (.file (encodeContents s.data)) fs.files, rest⟩) := by
  simp [Store.save, FS.createFile, h]

theorem save_eq_of_trace_flush (s : Store) (fs : FS)
    (rest : List WriteBehavior) (h : fs.ioTrace = .failedFlush :: rest) :
    s.save fs = (.ok (),
      ⟨assocSet s.path (.file .garbage) fs.files, rest⟩) := by
  simp [Store.save, FS.createFile, h]

theorem save_eq_of_trace_write (s : Store) (fs : FS)
    (rest : List WriteBehavior) (h : fs.ioTrace = .failedWrite :: rest) :
    s.save fs = (.error .otherKind,
      ⟨assocSet s.path (.file .garbage) fs.files, rest⟩) := by
  simp [Store.save, FS.createFile, h]

theorem save_eq_of_trace_create (s : Store) (fs : FS)
    (rest : List WriteBehavior) (h : fs.ioTrace = .failedCreate :: rest) :
    s.save fs = (.error .permissionDenied, ⟨fs.files, rest⟩) := by
  simp [Store.save, FS.createFile, h]

theorem set_snd_fst (s : Store) (fs : FS) (k v : String) :
    (s.set fs k v).2.1 = { s with data := assocSet k v s.data } :=
  rfl

theorem set_fst (s : Store) (fs : FS) (k v : String) :
    (s.set fs k v).1 =
      (Store.save { s with data := assocSet k v s.data } fs).1 :=
  rfl

theorem set_snd_snd (s : Store) (fs : FS) (k v : String) :
    (s.set fs k v).2.2 =
      (Store.save { s with data := assocSet k v s.data } fs).2 :=
  rfl

theorem set_mid (s : Store) (fs : FS) (k v : String)
    (r : Except ErrKind Unit) (s2 : Store) (fs2 : FS)
    (h : s.set fs k v = (r, s2, fs2)) :
    s2 = { s with data := assocSet k v s.data } := by
  rw [show s2 = (s.set fs k v).2.1 from by rw [h], set_snd_fst]

/-- C1: for every key `k` and value `v`, if `set(k, v)` returns success on
a store, then `get(k)` on that store afterwards returns exactly `v`. -/
theorem get_after_successful_set (s : Store) (fs : FS) (k v : String)
    (s2 : Store) (fs2 : FS)
    (h : s.set fs k v = (Except.ok (), s2, fs2)) :
    s2.get k = some v := by
  have h2 : s2 = (s.set fs k v).2.1 := by rw [h]
  rw [h2, set_snd_fst]
  simp [Store.get, assocGet_assocSet_self]

theorem get_after_successful_set_w :
    Store.set ⟨"p", []⟩ ⟨[], []⟩ "a" "1" =
      (Except.ok (), ⟨"p", [("a", "1")]⟩,
        ⟨[("p", .file (.encoded [("a", "1")]))], []⟩) ∧
    Store.get ⟨"p", [("a", "1")]⟩ "a" = some "1" :=
  ⟨rfl, get_after_successful_set ⟨"p", []⟩ ⟨[], []⟩ "a" "1" _ _ rfl⟩

/-- C5: `set(k, v1)` then `set(k, v2)` leaves `get(k) = v2`
(last-write-wins), and every other key reads the same as before the two
calls. -/
theorem last_write_wins (s : Store) (fs : FS) (k v1 v2 : String)
    (r1 r2 : Except ErrKind Unit) (s1 s2 : Store) (fs1 fs2 : FS)
    (h1 : s.set fs k v1 = (r1, s1, fs1))
    (h2 : s1.set fs1 k v2 = (r2, s2, fs2)) :
    s2.get k = some v2 ∧ ∀ k', k' ≠ k → s2.get k' = s.get k' := by
  have e1 : s1 = (s.set fs k v1).2.1 := by rw [h1]
  have e2 : s2 = (s1.set fs1 k v2).2.1 := by rw [h2]
  rw [e1, set_snd_fst] at e2
  rw [e2, set_snd_fst]
  constructor
  · simp [Store.get, assocGet_assocSet_self]
  · intro k' hk
    simp only [Store.get]
    rw [assocGet_assocSet_ne k k' v2 _ hk, assocGet_assocSet_ne k k' v1 _ hk]

theorem last_write_wins_w :
    Store.get ⟨"p", [("b", "9"), ("a", "2")]⟩ "a" = some "2" ∧
    ∀ k', k' ≠ "a" →
      Store.get ⟨"p", [("b", "9"), ("a", "2")]⟩ k' =
        Store.get ⟨"p", [("b", "9")]⟩ k' :=
  last_write_wins ⟨"p", [("b", "9")]⟩ ⟨[], []⟩ "a" "1" "2" _ _ _ _ _ _ rfl rfl

/-- C6: `get` on a key never inserted returns `none`, including every key
of a freshly constructed empty store.  In the model `get` has type
`Store → String → Option String`: it neither takes nor returns a
filesystem and returns no store, so it can neither error, nor mutate the
store, nor touch the file — exactly the shape of the Rust signature
`fn get(&self, key: &str) -> Option<&String>`. -/
theorem get_never_inserted (s : Store) (k : String) (fs : FS)
    (path : String) (h : k ∉ s.data.map Prod.fst)
    (hfresh : fs.openFile path = .ioError .notFound) :
    s.get k = none ∧
    Store.open_or_create fs path = (.ok ⟨path, []⟩, fs) ∧
    Store.get ⟨path, []⟩ k = none := by
  refine ⟨assocGet_eq_none_of_not_mem k s.data h, ?_, rfl⟩
  simp [Store.open_or_create, hfresh]

theorem get_never_inserted_w :
    Store.get ⟨"p", [("a", "1")]⟩ "b" = none ∧
    Store.open_or_create ⟨[], []⟩ "q" = (.ok ⟨"q", []⟩, ⟨[], []⟩) ∧
    Store.get ⟨"q", []⟩ "b" = none :=
  get_never_inserted ⟨"p", [("a", "1")]⟩ "b" ⟨[], []⟩ "q" (by decide) rfl

/-- C7: if `set(k, v)` fails (the save step returns an error), the
in-memory mapping is nonetheless mutated — `get(k)` afterwards returns
`v` — and the change is not reflected on disk: a failing save either
did not touch the filesystem at all (`File::create` failed) or left the
file at the store's path holding an undecodable truncated prefix (the
write failed after create's truncation); in neither case did it persist
the new mapping. -/
theorem failed_set_still_mutates (s : Store) (fs : FS) (k v : String)
    (e : ErrKind) (s2 : Store) (fs2 : FS)
    (h : s.set fs k v = (.error e, s2, fs2)) :
    s2.get k = some v ∧
    (fs2.files = fs.files ∨
      assocGet s.path fs2.files = some (.file .garbage)) := by
  have hs2 : s2 = (s.set fs k v).2.1 := by rw [h]
  have hfs2 : fs2 = (s.set fs k v).2.2 := by rw [h]
  have hr : (s.set fs k v).1 = .error e := by rw [h]
  rw [set_fst] at hr
  rw [set_snd_snd] at hfs2
  refine ⟨?_, ?_⟩
  · rw [hs2, set_snd_fst]
    simp [Store.get, assocGet_assocSet_self]
  · rcases htr : fs.ioTrace with _ | ⟨b, rest⟩
    · rw [save_eq_of_trace_nil _ _ htr] at hr
      exact absurd hr (by simp)
    · cases b with
      | fullWrite =>
        rw [save_eq_of_trace_full _ _ _ htr] at hr
        exact absurd hr (by simp)
      | failedFlush =>
        rw [save_eq_of_trace_flush _ _ _ htr] at hr
        exact absurd hr (by simp)
      | failedWrite =>
        right
        rw [hfs2, save_eq_of_trace_write _ _ _ htr]
        simp [assocGet_assocSet_self]
      | failedCreate =>
        left
        rw [hfs2, save_eq_of_trace_create _ _ _ htr]

theorem failed_set_still_mutates_w :
    Store.set ⟨"p", []⟩ ⟨[], [.failedWrite]⟩ "a" "1" =
      (.error .otherKind, ⟨"p", [("a", "1")]⟩,
        ⟨[("p", .file .garbage)], []⟩) ∧
    Store.get ⟨"p", [("a", "1")]⟩ "a" = some "1" ∧
    (([("p", DirEntry.file .garbage)] : List (String × DirEntry)) = [] ∨
      assocGet "p" [("p", DirEntry.file .garbage)] =
        some (.file .garbage)) :=
  ⟨rfl,
    (failed_set_still_mutates ⟨"p", []⟩ ⟨[], [.failedWrite]⟩ "a" "1" _ _ _ rfl).1,
    (failed_set_still_mutates ⟨"p", []⟩ ⟨[], [.failedWrite]⟩ "a" "1" _ _ _ rfl).2⟩

/-- C3: `open_or_create(path)` by cases on the file at `path`: absent
file — success with an empty mapping and the filesystem untouched (the
returned filesystem component is the input one, so no file is created);
open fails with a non-NotFound error — that error is returned and no
store is constructed; contents fail to decode — an error is returned;
contents decode — the decoded mapping becomes the store's data. -/
theorem open_or_create_cases (fs : FS) (path : String) :
    (fs.openFile path = .ioError .notFound →
      Store.open_or_create fs path = (.ok ⟨path, []⟩, fs)) ∧
    (∀ k, fs.openFile path = .ioError k → k ≠ .notFound →
      Store.open_or_create fs path = (.error k, fs)) ∧
    (∀ c, fs.openFile path = .ok c → decodeContents c = none →
      Store.open_or_create fs path = (.error .invalidData, fs)) ∧
    (∀ c m, fs.openFile path = .ok c → decodeContents c = some m →
      Store.open_or_create fs path = (.ok ⟨path, m⟩, fs)) := by
  refine ⟨?_, ?_, ?_, ?_⟩
  · intro h
    simp [Store.open_or_create, h]
  · intro k h hk
    simp [Store.open_or_create, h, hk]
  · intro c h hd
    simp [Store.open_or_create, h, hd]
  · intro c m h hd
    simp [Store.open_or_create, h, hd]

theorem open_or_create_cases_w :
    Store.open_or_create ⟨[], []⟩ "p" = (.ok ⟨"p", []⟩, ⟨[], []⟩) ∧
    Store.open_or_create ⟨[("p", .unreadable .permissionDenied)], []⟩ "p" =
      (.error .permissionDenied, ⟨[("p", .unreadable .permissionDenied)], []⟩) ∧
    Store.open_or_create ⟨[("p", .file .garbage)], []⟩ "p" =
      (.error .invalidData, ⟨[("p", .file .garbage)], []⟩) ∧
    Store.open_or_create ⟨[("p", .file (.encoded [("a", "1")]))], []⟩ "p" =
      (.ok ⟨"p", [("a", "1")]⟩, ⟨[("p", .file (.encoded [("a", "1")]))], []⟩) :=
  ⟨(open_or_create_cases ⟨[], []⟩ "p").1 rfl,
    (open_or_create_cases ⟨[("p", .unreadable .permissionDenied)], []⟩ "p").2.1
      .permissionDenied rfl (by decide),
    (open_or_create_cases ⟨[("p", .file .garbage)], []⟩ "p").2.2.1
      .garbage rfl rfl,
    (open_or_create_cases ⟨[("p", .file (.encoded [("a", "1")]))], []⟩ "p").2.2.2
      (.encoded [("a", "1")]) [("a", "1")] rfl rfl⟩

/-- C4: the claim fails on the code.  `save` never flushes its
`BufWriter`: `serde_json::to_writer` consumes it, the final flush runs
in `Drop`, and a flush error there is silently discarded, so `set` can
return `Ok(())` while the file — already truncated by `File::create` —
holds an empty or partial prefix that does not decode.  At the failing
input below (next write's drop-flush fails), `set("a", "1")` on an empty
store succeeds, memory holds {"a": "1"}, yet the file at the store's
path is undecodable rather than decoding to the in-memory mapping. -/
theorem set_ok_but_file_undecodable :
    Store.set ⟨"p", []⟩ ⟨[], [.failedFlush]⟩ "a" "1" =
      (.ok (), ⟨"p", [("a", "1")]⟩, ⟨[("p", .file .garbage)], []⟩) ∧
    assocGet "p" [("p", DirEntry.file .garbage)] = some (.file .garbage) ∧
    decodeContents .garbage = none ∧
    decodeContents .garbage ≠ some [("a", "1")] :=
  ⟨rfl, rfl, rfl, by decide⟩

/-- C8: the claim fails on the code, for the same swallowed-flush reason
as the persistence invariant.  Two consecutive saves of the same store
can both return `Ok` while only the second one's bytes reach the file:
the first save's drop-flush fails silently (file left undecodable), the
second fully succeeds (file holds the encoding), so the decoded content
after the second save differs from the decoded content after the
first. -/
theorem save_twice_ok_contents_differ :
    Store.save ⟨"p", [("a", "1")]⟩ ⟨[], [.failedFlush, .fullWrite]⟩ =
      (.ok (), ⟨[("p", .file .garbage)], [.fullWrite]⟩) ∧
    Store.save ⟨"p", [("a", "1")]⟩ ⟨[("p", .file .garbage)], [.fullWrite]⟩ =
      (.ok (), ⟨[("p", .file (.encoded [("a", "1")]))], []⟩) ∧
    decodeContents .garbage ≠ decodeContents (.encoded [("a", "1")]) :=
  ⟨rfl, rfl, by decide⟩

theorem get_isSome_runOp (s : Store) (fs : FS) (k : String) (op : ApiOp)
    (h : (s.get k).isSome = true) :
    ((runOp s fs op).1.get k).isSome = true := by
  cases op with
  | doSet k2 v =>
    simp only [runOp, set_snd_fst]
    by_cases hk : k = k2
    · subst hk
      simp [Store.get, assocGet_assocSet_self]
    · simp only [Store.get]
      rw [assocGet_assocSet_ne k2 k v _ hk]
      exact h
  | doSave => exact h
  | doGet k2 => exact h

/-- C9: iteration over a store yields exactly the current entries of its
mapping: `(k, v)` occurs in the produced sequence if and only if
`get(k) = v` in memory (under the unique-keys invariant every API-built
store enjoys).  The sequence is a `List`, hence finite, and `into_iter`
is a pure function of the store, so invoking it again yields the same
fresh complete pass; no order is asserted. -/
theorem into_iter_covers (s : Store) (hwf : s.WF) :
    ∀ k v, (k, v) ∈ s.into_iter ↔ s.get k = some v := by
  intro k v
  constructor
  · intro h
    exact assocGet_eq_some_of_mem k v s.data hwf h
  · intro h
    exact mem_of_assocGet_eq_some k v s.data h

theorem into_iter_covers_w :
    ("a", "1") ∈ Store.into_iter ⟨"p", [("a", "1"), ("b", "2")]⟩ ↔
      Store.get ⟨"p", [("a", "1"), ("b", "2")]⟩ "a" = some "1" :=
  into_iter_covers ⟨"p", [("a", "1"), ("b", "2")]⟩ (by unfold Store.WF; decide)
    "a" "1"

/-- C10: the API has no delete operation — `set` only inserts or
overwrites, `save` and `get` leave the mapping alone — so once `get(k)`
returns a value, it still returns some value after every subsequent
sequence of API operations. -/
theorem no_delete (ops : List ApiOp) (s : Store) (fs : FS) (k : String)
    (h : (s.get k).isSome = true) :
    ((runOps s fs ops).1.get k).isSome = true := by
  induction ops generalizing s fs with
  | nil => exact h
  | cons op rest ih =>
    simp only [runOps]
    exact ih _ _ (get_isSome_runOp s fs k op h)

/-- C2 counterexample: with k1 = k2 = "a", v1 = "x", v2 = "y" on a fresh
path, the whole pipeline succeeds — open empty, both sets, the save, the
reopen — yet the reopened mapping is {("a", "y")}, which is not equal as
a set of pairs to {("a", "x"), ("a", "y")}: the claim as stated fails. -/
theorem round_trip_cex :
    (Store.open_or_create ⟨[], []⟩ "p").1 = .ok ⟨"p", []⟩ ∧
    Store.set ⟨"p", []⟩ ⟨[], []⟩ "a" "x" =
      (.ok (), ⟨"p", [("a", "x")]⟩,
        ⟨[("p", .file (.encoded [("a", "x")]))], []⟩) ∧
    Store.set ⟨"p", [("a", "x")]⟩ ⟨[("p", .file (.encoded [("a", "x")]))], []⟩
        "a" "y" =
      (.ok (), ⟨"p", [("a", "y")]⟩,
        ⟨[("p", .file (.encoded [("a", "y")]))], []⟩) ∧
    Store.save ⟨"p", [("a", "y")]⟩ ⟨[("p", .file (.encoded [("a", "y")]))], []⟩ =
      (.ok (), ⟨[("p", .file (.encoded [("a", "y")]))], []⟩) ∧
    (Store.open_or_create ⟨[("p", .file (.encoded [("a", "y")]))], []⟩ "p").1 =
      .ok ⟨"p", [("a", "y")]⟩ ∧
    ¬ (∀ pr : String × String,
        pr ∈ (Store.mk "p" [("a", "y")]).data ↔
          (pr = ("a", "x") ∨ pr = ("a", "y"))) := by
  refine ⟨rfl, rfl, rfl, rfl, rfl, ?_⟩
  intro hall
  have hmem := (hall ("a", "x")).2 (Or.inl rfl)
  exact absurd hmem (by decide)

/-- C2 amended: starting from a path holding no file, setting (k1, v1)
then (k2, v2) with k1 ≠ k2, saving successfully, then reopening the same
path yields a store whose mapping equals {(k1, v1), (k2, v2)} as a set of
pairs.  (When k1 = k2 the reopened mapping is {(k2, v2)} instead:
last-write-wins collapses the two pairs, see the counterexample.)  The
result does not depend on the atomicity of the earlier writes: if the
final save's bytes never reached the file (the swallowed drop-flush),
the file is undecodable and the reopen hypothesis cannot hold, so the
successful reopen pins the file to the full encoding of the final
in-memory mapping. -/
theorem round_trip (fs : FS) (path k1 v1 k2 v2 : String)
    (s0 s1 s2 s3 : Store) (fs1 fs2 fs3 : FS)
    (hne : k1 ≠ k2)
    (habs : assocGet path fs.files = none)
    (h0 : (Store.open_or_create fs path).1 = .ok s0)
    (h1 : s0.set fs k1 v1 = (.ok (), s1, fs1))
    (h2 : s1.set fs1 k2 v2 = (.ok (), s2, fs2))
    (h3 : s2.save fs2 = (.ok (), fs3))
    (h4 : (Store.open_or_create fs3 path).1 = .ok s3) :
    ∀ pr, pr ∈ s3.data ↔ (pr = (k1, v1) ∨ pr = (k2, v2)) := by
  have hopen : fs.openFile path = .ioError .notFound := by
    simp [FS.openFile, habs]
  simp [Store.open_or_create, hopen] at h0
  subst h0
  have e1 := set_mid _ _ _ _ _ _ _ h1
  subst e1
  have e2 := set_mid _ _ _ _ _ _ _ h2
  subst e2
  rcases htr : fs2.ioTrace with _ | ⟨b, rest⟩
  · rw [save_eq_of_trace_nil _ _ htr] at h3
    injection h3 with hA hB
    subst hB
    simp only [Store.open_or_create, FS.openFile, assocGet_assocSet_self,
      decodeContents, encodeContents] at h4
    injection h4 with h4'
    subst h4'
    intro pr
    simp [assocSet, hne]
  · cases b with
    | fullWrite =>
      rw [save_eq_of_trace_full _ _ _ htr] at h3
      injection h3 with hA hB
      subst hB
      simp only [Store.open_or_create, FS.openFile, assocGet_assocSet_self,
        decodeContents, encodeContents] at h4
      injection h4 with h4'
      subst h4'
      intro pr
      simp [assocSet, hne]
    | failedFlush =>
      rw [save_eq_of_trace_flush _ _ _ htr] at h3
      injection h3 with hA hB
      subst hB
      simp [Store.open_or_create, FS.openFile, assocGet_assocSet_self,
        decodeContents] at h4
    | failedWrite =>
      rw [save_eq_of_trace_write _ _ _ htr] at h3
      injection h3 with hA hB
      exact absurd hA (by simp)
    | failedCreate =>
      rw [save_eq_of_trace_create _ _ _ htr] at h3
      injection h3 with hA hB
      exact absurd hA (by simp)

theorem round_trip_w :
    ("b", "2") ∈ (Store.mk "p" [("a", "1"), ("b", "2")]).data ↔
      (("b", "2") = (("a", "1") : String × String) ∨ ("b", "2") = ("b", "2")) :=
  round_trip ⟨[], []⟩ "p" "a" "1" "b" "2" _ _ _ _ _ _ _
    (by decide) rfl rfl rfl rfl rfl rfl ("b", "2")

theorem no_delete_w :
    (Store.get ⟨"p", [("a", "1")]⟩ "a").isSome = true ∧
    ((runOps ⟨"p", [("a", "1")]⟩ ⟨[], []⟩
        [.doSet "a" "2", .doSave, .doGet "x", .doSet "b" "3"]).1.get
      "a").isSome = true :=
  ⟨rfl, no_delete _ _ _ _ rfl⟩

end Rskey

